import Mathlib

/-!
Verification development for the streaming-catalog front-end.

The TypeScript sources are shallowly embedded: JavaScript numbers are
idealised as exact rationals (JSON numbers are always finite decimals, so
this is faithful for every value the app can actually store), JavaScript
maps built by repeated keyed assignment are association lists where the
last write wins, and each asynchronous fetch is a pure function of a
per-show outcome environment; a rejected promise is an Except.error.
-/

namespace JsCore

/-- The characters the JavaScript regular-expression class backslash-s and
String.prototype.trim treat as whitespace (ASCII whitespace, NBSP,
line/paragraph separators and the BOM). -/
def isJsWhitespace (c : Char) : Bool :=
  c == ' ' || c == '\t' || c == '\n' || c == '\r' || c == '\x0b' || c == '\x0c' ||
    c == '\u00a0' || c == '\u2028' || c == '\u2029' || c == '\ufeff'

/-- JavaScript String.prototype.trim: strip whitespace from both ends. -/
def jsTrim (s : String) : String :=
  ⟨((s.data.dropWhile isJsWhitespace).reverse.dropWhile isJsWhitespace).reverse⟩

/-- A JavaScript number: either finite (idealised as an exact rational) or
one of the non-finite values NaN, Infinity, -Infinity. -/
inductive JsNumber where
  | nan
  | posInf
  | negInf
  | finite (q : Rat)
deriving DecidableEq

/-- Number.isFinite. -/
def JsNumber.isFinite : JsNumber → Bool
  | .finite _ => true
  | _ => false

def digitVal (c : Char) : Nat := c.toNat - '0'.toNat

def isHexDigit (c : Char) : Bool :=
  c.isDigit || decide ('a' ≤ c ∧ c ≤ 'f') || decide ('A' ≤ c ∧ c ≤ 'F')

def hexVal (c : Char) : Nat :=
  if c.isDigit then digitVal c
  else if 'a' ≤ c ∧ c ≤ 'f' then c.toNat - 'a'.toNat + 10
  else c.toNat - 'A'.toNat + 10

/-- Value of a digit list in the given base (most significant first). -/
def digitsToNat (base : Nat) (ds : List Char) : Nat :=
  ds.foldl (fun acc c => acc * base + hexVal c) 0

/-- Parse an exponent suffix such as e12, E-3; none when present but malformed.
Returns the exponent (0 when the input is empty). -/
def parseExponent (cs : List Char) : Option Int :=
  match cs with
  | [] => some 0
  | c :: rest =>
    if c = 'e' ∨ c = 'E' then
      match rest with
      | '+' :: ds => if ds ≠ [] ∧ ds.all Char.isDigit then some (digitsToNat 10 ds) else none
      | '-' :: ds => if ds ≠ [] ∧ ds.all Char.isDigit then some (-(digitsToNat 10 ds : Int)) else none
      | ds => if ds ≠ [] ∧ ds.all Char.isDigit then some (digitsToNat 10 ds) else none
    else none

/-- Scale a rational by a power of ten with an integer exponent. -/
def scalePow10 (q : Rat) (e : Int) : Rat :=
  if 0 ≤ e then q * (10 : Rat) ^ e.toNat else q / (10 : Rat) ^ (-e).toNat

/-- Parse an unsigned decimal literal (digits, optional fraction, optional
exponent), consuming the whole input. -/
def parseUnsignedDec (cs : List Char) : Option Rat :=
  let intDigits := cs.takeWhile Char.isDigit
  let rest := cs.dropWhile Char.isDigit
  match rest with
  | '.' :: rest2 =>
    let fracDigits := rest2.takeWhile Char.isDigit
    let rest3 := rest2.dropWhile Char.isDigit
    if intDigits = [] ∧ fracDigits = [] then none
    else
      (parseExponent rest3).map fun e =>
        scalePow10 ((digitsToNat 10 intDigits : Rat) +
          (digitsToNat 10 fracDigits : Rat) / (10 : Rat) ^ fracDigits.length) e
  | _ =>
    if intDigits = [] then none
    else (parseExponent rest).map fun e => scalePow10 (digitsToNat 10 intDigits : Rat) e

/-- The JavaScript ToNumber coercion on strings: trimmed empty input is 0,
signed decimal and Infinity literals, unsigned radix-prefixed literals;
anything else is NaN. -/
def strToJsNumber (s : String) : JsNumber :=
  let cs := (jsTrim s).data
  match cs with
  | [] => .finite 0
  | '0' :: b :: rest =>
    if b = 'x' ∨ b = 'X' then
      if rest ≠ [] ∧ rest.all isHexDigit then .finite (digitsToNat 16 rest) else .nan
    else if b = 'o' ∨ b = 'O' then
      if rest ≠ [] ∧ rest.all (fun c => decide ('0' ≤ c ∧ c ≤ '7')) then
        .finite (digitsToNat 8 rest)
      else .nan
    else if b = 'b' ∨ b = 'B' then
      if rest ≠ [] ∧ rest.all (fun c => c == '0' || c == '1') then
        .finite (digitsToNat 2 rest)
      else .nan
    else
      match parseUnsignedDec cs with
      | some q => .finite q
      | none => .nan
  | '-' :: rest =>
    if rest = "Infinity".data then .negInf
    else match parseUnsignedDec rest with
      | some q => .finite (-q)
      | none => .nan
  | '+' :: rest =>
    if rest = "Infinity".data then .posInf
    else match parseUnsignedDec rest with
      | some q => .finite q
      | none => .nan
  | _ =>
    if cs = "Infinity".data then .posInf
    else match parseUnsignedDec cs with
      | some q => .finite q
      | none => .nan

/-- A parsed JSON value (what JSON.parse can return). -/
inductive Json where
  | null
  | bool (b : Bool)
  | num (q : Rat)
  | str (s : String)
  | arr (elems : List Json)
  | obj (fields : List (String × Json))

/-- Decimal rendering of a rational, used to model how a JSON-parsed number
(always an exact decimal) prints inside Array.prototype.toString. The fuel
bounds the fraction expansion; JSON-parsed numbers terminate well within it. -/
def ratFracDigits (fuel : Nat) (r den : Nat) : List Char :=
  match fuel with
  | 0 => []
  | fuel + 1 =>
    if r = 0 then []
    else Char.ofNat ('0'.toNat + r * 10 / den) :: ratFracDigits fuel (r * 10 % den) den

def ratToJsString (q : Rat) : String :=
  let sign := if q < 0 then "-" else ""
  let n := q.num.natAbs
  let ipart := toString (n / q.den)
  let r := n % q.den
  if r = 0 then sign ++ ipart
  else sign ++ ipart ++ "." ++ ⟨ratFracDigits 400 r q.den⟩

/-- String conversion of a JSON value as it appears inside a joined array
(Array.prototype.toString): null joins as the empty string. -/
def jsonJoinStr : Json → String
  | .null => ""
  | .bool b => if b then "true" else "false"
  | .num q => ratToJsString q
  | .str s => s
  | .arr xs => String.intercalate "," (xs.attach.map fun x => jsonJoinStr x.1)
  | .obj _ => "[object Object]"
decreasing_by
  simp only [Json.arr.sizeOf_spec]
  exact Nat.lt_add_left 1 (List.sizeOf_lt_of_mem x.2)

/-- The JavaScript Number coercion applied to a JSON value: numbers pass
through, null and booleans coerce numerically, strings and arrays go through
the string grammar, plain objects are NaN. -/
def jsToNumber : Json → JsNumber
  | .num q => .finite q
  | .null => .finite 0
  | .bool b => .finite (if b then 1 else 0)
  | .str s => strToJsNumber s
  | .arr xs => strToJsNumber (jsonJoinStr (.arr xs))
  | .obj _ => strToJsNumber "[object Object]"

/-- JavaScript Math.round: nearest integer, halves toward positive infinity. -/
def jsRound (q : Rat) : Int := ⌊q + 1/2⌋

/-- Number(x.toFixed(1)): round to one decimal place, halves away from zero
for the positive values this app feeds it. -/
def toFixed1 (q : Rat) : Rat := ((⌊q * 10 + 1/2⌋ : Int) : Rat) / 10

/-- Lookup in a JavaScript object used as a keyed map built by repeated
assignment: the last write wins. -/
def jsLookup {α : Type} (m : List (Int × α)) (k : Int) : Option α :=
  match m with
  | [] => none
  | (k', v) :: rest =>
    match jsLookup rest k with
    | some v' => some v'
    | none => if k' = k then some v else none

/-- Truthiness of an optional string: present and non-empty. -/
def truthyStr (s : Option String) : Bool :=
  match s with
  | some s' => s' != ""
  | none => false

end JsCore

namespace Catalog

open JsCore

inductive ShowType where
  | movie
  | series
deriving DecidableEq

/-- A catalog entry as the src modules consume it: the seed fields plus the
id assigned by fetchShows and the OMDb enrichment fields. The seed data file
itself is not under src; its field set is the one the src modules read. -/
structure CatalogShow where
  id : Int
  title : String
  type : ShowType
  releaseYear : Option Int := none
  maturityRating : Option String := none
  runtimeMinutes : Option Rat := none
  synopsis : Option String := none
  poster : Option String := none
  genres : Option (List String) := none
  imdbRating : Option Rat := none
  imdbVotes : Option Rat := none
  imdbId : Option String := none
  collections : List String := []
  popularityScore : Option Rat := none
  heroPriority : Option Rat := none
  top10Week : Option String := none
  weeklyHoursViewedMillions : Option Rat := none
  netflixUrl : Option String := none
deriving DecidableEq

/-- A seed entry from the catalog data file: like CatalogShow but the id is
optional (fetchShows fills absent ids positionally) and the four
OMDb-enrichment fields are not yet present. -/
structure Seed where
  id : Option Int := none
  title : String
  type : ShowType
  releaseYear : Option Int := none
  maturityRating : Option String := none
  runtimeMinutes : Option Rat := none
  synopsis : Option String := none
  imdbId : Option String := none
  collections : List String := []
  popularityScore : Option Rat := none
  heroPriority : Option Rat := none
  top10Week : Option String := none
  weeklyHoursViewedMillions : Option Rat := none
  netflixUrl : Option String := none
deriving DecidableEq

end Catalog

namespace Omdb

open JsCore Catalog

/-- The decoded JSON body of an OMDb response (src/streaming-web/src/lib/omdb.ts,
type OmdbResponse): responseTrue models the Response field being the literal
string True. -/
structure OmdbResponse where
  responseTrue : Bool
  poster : Option String := none
  plot : Option String := none
  rated : Option String := none
  runtime : Option String := none
  genre : Option String := none
  year : Option String := none
  imdbRating : Option String := none
  imdbVotes : Option String := none
  typeField : Option String := none

structure OmdbDetails where
  poster : Option String := none
  plot : Option String := none
  rated : Option String := none
  runtimeMinutes : Option Rat := none
  genres : Option (List String) := none
  imdbRating : Option Rat := none
  imdbVotes : Option Rat := none
  year : Option Int := none
  type : Option ShowType := none

/-- sanitize in omdb.ts: keep a string only when it is present, non-empty and
not the OMDb placeholder N/A. -/
def sanitize (v : Option String) : Option String :=
  match v with
  | some s => if s ≠ "" ∧ s ≠ "N/A" then some s else none
  | none => none

/-- Case-insensitive match of the (lowercase) pattern against the front of
the input. -/
def startsWithCI (pat : List Char) (cs : List Char) : Bool :=
  match pat, cs with
  | [], _ => true
  | _ :: _, [] => false
  | p :: ps, c :: rest => (c.toLower == p) && startsWithCI ps rest

/-- First match of the pattern digits-whitespace-min (the minutesMatch regex
in parseRuntime), returning the digit group's value. -/
def scanMin : List Char → Option Nat
  | [] => none
  | c :: rest =>
    if c.isDigit then
      let ds := (c :: rest).takeWhile Char.isDigit
      let r1 := (c :: rest).dropWhile Char.isDigit
      let r2 := r1.dropWhile isJsWhitespace
      if startsWithCI "min".data r2 then some (digitsToNat 10 ds) else scanMin rest
    else scanMin rest

/-- First match of the hoursMatch regex in parseRuntime: digits, whitespace,
an h optionally continued as hour or hours, whitespace, then an optional
second digit group. -/
def scanHours : List Char → Option (Nat × Option Nat)
  | [] => none
  | c :: rest =>
    if c.isDigit then
      let ds := (c :: rest).takeWhile Char.isDigit
      let r1 := (c :: rest).dropWhile Char.isDigit
      let r2 := r1.dropWhile isJsWhitespace
      match r2 with
      | h :: r3 =>
        if h.toLower == 'h' then
          let r4 := if startsWithCI "ours".data r3 then r3.drop 4
                    else if startsWithCI "our".data r3 then r3.drop 3 else r3
          let r5 := r4.dropWhile isJsWhitespace
          let ms := r5.takeWhile Char.isDigit
          some (digitsToNat 10 ds, if ms.isEmpty then none else some (digitsToNat 10 ms))
        else scanHours rest
      | [] => scanHours rest
    else scanHours rest

/-- parseRuntime in omdb.ts. -/
def parseRuntime (v : Option String) : Option Rat :=
  match v with
  | none => none
  | some s =>
    if s = "" then none
    else match scanMin s.data with
      | some n => some (n : Rat)
      | none =>
        match scanHours s.data with
        | some (h, m) => some ((h * 60 + m.getD 0 : Nat) : Rat)
        | none => none

/-- parseGenres in omdb.ts: split on commas, trim, drop empties. -/
def parseGenres (v : Option String) : Option (List String) :=
  match v with
  | some s =>
    if s ≠ "" ∧ s ≠ "N/A"
    then some (((s.splitOn ",").map jsTrim).filter (fun g => g != ""))
    else none
  | none => none

/-- parseFloatSafe in omdb.ts. -/
def parseFloatSafe (v : Option String) : Option Rat :=
  match v with
  | none => none
  | some s =>
    if s = "" ∨ s = "N/A" then none
    else match strToJsNumber s with
      | .finite q => some q
      | _ => none

/-- parseIntSafe in omdb.ts: commas removed, then the Number coercion. -/
def parseIntSafe (v : Option String) : Option Rat :=
  match v with
  | none => none
  | some s =>
    if s = "" ∨ s = "N/A" then none
    else match strToJsNumber ⟨s.data.filter (fun c => c != ',')⟩ with
      | .finite q => some q
      | _ => none

/-- parseYear in omdb.ts: first run of four digits. -/
def findFourDigits : List Char → Option (List Char)
  | [] => none
  | c :: rest =>
    if ((c :: rest).take 4).length = 4 ∧ ((c :: rest).take 4).all Char.isDigit
    then some ((c :: rest).take 4)
    else findFourDigits rest

def parseYear (v : Option String) : Option Int :=
  match v with
  | none => none
  | some s =>
    if s = "" ∨ s = "N/A" then none
    else (findFourDigits s.data).map fun ds => (digitsToNat 10 ds : Int)

/-- The outcome of the network round-trip fetchDetails performs for one show:
the request (or body decoding) threw, the response was not ok, or a decoded
body arrived. -/
inductive OmdbOutcome where
  | threw
  | notOk (status : Nat)
  | okBody (body : OmdbResponse)

/-- Field extraction at the end of fetchDetails in omdb.ts. -/
def parseOmdbBody (b : OmdbResponse) : Option OmdbDetails :=
  if b.responseTrue then
    some { poster := sanitize b.poster
           plot := sanitize b.plot
           rated := sanitize b.rated
           runtimeMinutes := parseRuntime b.runtime
           genres := parseGenres b.genre
           imdbRating := parseFloatSafe b.imdbRating
           imdbVotes := parseIntSafe b.imdbVotes
           year := parseYear b.year
           type :=
             if b.typeField = some "movie" then some .movie
             else if b.typeField = some "series" then some .series
             else none }
  else none

/-- fetchDetails in omdb.ts: a thrown request rejects, a non-ok response
throws (so also rejects), a decoded body parses to details or null. -/
def fetchDetails : OmdbOutcome → Except Unit (Option OmdbDetails)
  | .threw => .error ()
  | .notOk _ => .error ()
  | .okBody b => .ok (parseOmdbBody b)

/-- fetchOmdbDetails in omdb.ts: blank key or empty batch short-circuits;
otherwise every per-show lookup runs inside try/catch, so a failure is
dropped and the batch itself always resolves. -/
def fetchOmdbDetails (shows : List CatalogShow) (apiKey : String)
    (env : CatalogShow → OmdbOutcome) : Except Unit (List (Int × OmdbDetails)) :=
  if jsTrim apiKey = "" ∨ shows.isEmpty then .ok []
  else .ok (shows.foldl (fun acc s =>
    match fetchDetails (env s) with
    | .error _ => acc
    | .ok none => acc
    | .ok (some d) => acc ++ [(s.id, d)]) [])

end Omdb

namespace GiphyPair

open JsCore Catalog

/-- The images record of one gif in a Giphy search response, flattened to
the four URL alternatives fetchClipPair reads. -/
structure GifImages where
  original_mp4 : Option String := none
  preview_mp4 : Option String := none
  downsized_large : Option String := none
  original : Option String := none

/-- Outcome of the Giphy round-trip for one show: the request (or body
decoding) threw, the response was not ok, or a decoded gif list arrived. -/
inductive GiphyOutcome where
  | threw
  | notOk (status : Nat)
  | okBody (gifs : List GifImages)

structure HeroClip where
  primary : Option String := none
  secondary : Option String := none

/-- The select helper in fetchClipPair: first present URL alternative. -/
def selectClip (g : Option GifImages) : Option String :=
  match g with
  | some g' => ((g'.original_mp4.or g'.preview_mp4).or g'.downsized_large).or g'.original
  | none => none

/-- fetchClipPair in the pair variant of the Giphy client: a non-ok response
is degraded to a null pair, but there is no try/catch, so a thrown request
rejects. -/
def fetchClipPair : GiphyOutcome → Except Unit HeroClip
  | .threw => .error ()
  | .notOk _ => .ok {}
  | .okBody gifs => .ok ⟨selectClip (gifs.get? 0), selectClip (gifs.get? 1)⟩

/-- The Promise.all body of fetchHeroClips: each show's clip pair is stored
under its id when either side is truthy; any rejection rejects the batch. -/
def clipLoop (env : CatalogShow → GiphyOutcome) :
    List CatalogShow → List (Int × HeroClip) → Except Unit (List (Int × HeroClip))
  | [], acc => .ok acc
  | s :: rest, acc =>
    match fetchClipPair (env s) with
    | .error e => .error e
    | .ok clip =>
      clipLoop env rest
        (if truthyStr clip.primary || truthyStr clip.secondary
         then acc ++ [(s.id, clip)] else acc)

/-- fetchHeroClips in the pair variant of the Giphy client. -/
def fetchHeroClips (shows : List CatalogShow) (apiKey : Option String)
    (env : CatalogShow → GiphyOutcome) : Except Unit (List (Int × HeroClip)) :=
  let trimmedKey := apiKey.map jsTrim
  if trimmedKey = none ∨ trimmedKey = some "" ∨ shows.isEmpty then .ok []
  else clipLoop env shows []

end GiphyPair

namespace Gql

open JsCore Catalog Omdb

/-- The spread of one seed inside fetchShows in graphql-client.ts, with an
absent id assigned positionally as index + 1. -/
def seedToShow (index : Nat) (seed : Seed) : CatalogShow :=
    { id := seed.id.getD ((index : Int) + 1)
      title := seed.title
      type := seed.type
      releaseYear := seed.releaseYear
      maturityRating := seed.maturityRating
      runtimeMinutes := seed.runtimeMinutes
      synopsis := seed.synopsis
      imdbId := seed.imdbId
      collections := seed.collections
      popularityScore := seed.popularityScore
      heroPriority := seed.heroPriority
      top10Week := seed.top10Week
      weeklyHoursViewedMillions := seed.weeklyHoursViewedMillions
      netflixUrl := seed.netflixUrl }

/-- The first step of fetchShows in graphql-client.ts: spread each seed and
assign absent ids positionally. -/
def assignIds (seeds : List Seed) : List CatalogShow :=
  seeds.mapIdx seedToShow

/-- The per-show merge in fetchShows: no OMDb entry leaves the entry alone;
otherwise each enrichable field prefers the OMDb value with the seed value
as fallback (releaseYear keeps the seed value first, and genres only adopt
a non-empty OMDb list). -/
def mergeOne (dmap : List (Int × OmdbDetails)) (sh : CatalogShow) : CatalogShow :=
  match jsLookup dmap sh.id with
  | none => sh
  | some omdb =>
    { sh with
      releaseYear := sh.releaseYear.or (omdb.year.or sh.releaseYear)
      maturityRating := omdb.rated.or sh.maturityRating
      runtimeMinutes := omdb.runtimeMinutes.or sh.runtimeMinutes
      synopsis := omdb.plot.or sh.synopsis
      poster := omdb.poster.or sh.poster
      imdbRating := omdb.imdbRating.or sh.imdbRating
      imdbVotes := omdb.imdbVotes.or sh.imdbVotes
      type :=
        match omdb.type with
        | some t => t
        | none => sh.type
      genres :=
        match omdb.genres with
        | some (g :: gs) => some (g :: gs)
        | _ => sh.genres }

/-- fetchShows in graphql-client.ts, with the awaited fetchOmdbDetails result
passed in as the details map: a missing or blank key returns the seeded
catalog unmerged. -/
def fetchShows (seeds : List Seed) (omdbKey : Option String)
    (dmap : List (Int × OmdbDetails)) : List CatalogShow :=
  let catalog := assignIds seeds
  match omdbKey.map jsTrim with
  | none => catalog
  | some k => if k = "" then catalog else catalog.map (mergeOne dmap)

end Gql

namespace AppMain

open JsCore Catalog

/-- The possible states of the stored favorites value: the storage key is
absent, holds the empty string, holds text JSON.parse rejects, or holds text
that parses to the given JSON value. -/
inductive StoredRaw where
  | absent
  | emptyStr
  | malformed
  | parsed (j : Json)

/-- The element conversion inside readStoredMyList: a number passes through,
anything else goes through the Number coercion. -/
def coerceElem (v : Json) : JsNumber :=
  match v with
  | .num q => .finite q
  | _ => jsToNumber v

/-- readStoredMyList in the App module of part_002: every failure path is the
empty list, and array elements are coerced then filtered to finite numbers. -/
def readStoredMyList : StoredRaw → List JsNumber
  | .absent => []
  | .emptyStr => []
  | .malformed => []
  | .parsed j =>
    match j with
    | .arr xs => (xs.map coerceElem).filter JsNumber.isFinite
    | _ => []

/-- toggleMyList: drop a present id, append an absent one. -/
def toggleMyList (prev : List Int) (showId : Int) : List Int :=
  if prev.contains showId then prev.filter (fun i => i != showId)
  else prev ++ [showId]

/-- The persistence effect: the storage key is set to JSON.stringify of the
current id list, so the stored value parses back to exactly that numeric
array. -/
def persistMyList (ids : List Int) : StoredRaw :=
  .parsed (.arr (ids.map fun i => .num (i : Rat)))

inductive ArtVariant where
  | hero
  | tile
deriving DecidableEq

/-- The characters encodeURIComponent leaves unescaped. -/
def isUnreservedURIChar (c : Char) : Bool :=
  c.isAlphanum || ['-', '_', '.', '!', '~', '*', '\'', '(', ')'].contains c

def utf8Bytes (c : Char) : List Nat :=
  let n := c.toNat
  if n < 0x80 then [n]
  else if n < 0x800 then [0xc0 + n / 0x40, 0x80 + n % 0x40]
  else if n < 0x10000 then
    [0xe0 + n / 0x1000, 0x80 + (n / 0x40) % 0x40, 0x80 + n % 0x40]
  else
    [0xf0 + n / 0x40000, 0x80 + (n / 0x1000) % 0x40, 0x80 + (n / 0x40) % 0x40,
      0x80 + n % 0x40]

def hexDigitChar (n : Nat) : Char :=
  if n < 10 then Char.ofNat ('0'.toNat + n) else Char.ofNat ('A'.toNat + n - 10)

def percentEncodeChar (c : Char) : List Char :=
  if isUnreservedURIChar c then [c]
  else (utf8Bytes c).flatMap fun b => ['%', hexDigitChar (b / 16), hexDigitChar (b % 16)]

/-- The encodeURIComponent builtin. -/
def encodeURIComponent (s : String) : String := ⟨s.data.flatMap percentEncodeChar⟩

/-- The replace of the whitespace-run regex by a hyphen in
buildFallbackArtworkUrl: each maximal whitespace run becomes one hyphen. -/
def collapseWs : List Char → List Char
  | [] => []
  | c :: rest =>
    if isJsWhitespace c then '-' :: collapseWs (rest.dropWhile isJsWhitespace)
    else c :: collapseWs rest
termination_by cs => cs.length
decreasing_by
  · exact Nat.lt_succ_of_le ((rest.dropWhile_sublist isJsWhitespace).length_le)
  · exact Nat.lt_succ_of_le (Nat.le_refl _)

/-- String.prototype.toLowerCase, modeled per character. -/
def jsToLowerStr (s : String) : String := s.map Char.toLower

/-- buildFallbackArtworkUrl in the App module: a deterministic picsum URL
seeded by the lower-cased, whitespace-hyphenated, URI-encoded title, with
dimensions fixed by the variant. -/
def buildFallbackArtworkUrl (sh : CatalogShow) (variant : ArtVariant) : String :=
  let seed := encodeURIComponent ⟨collapseWs (jsToLowerStr sh.title).data⟩
  let dimensions :=
    match variant with
    | .hero => "1600/900"
    | .tile => "500/750"
  "https://picsum.photos/seed/" ++ seed ++ "/" ++ dimensions

/-- getArtworkForShow: the poster for the id when the map has one, else the
fallback URL. -/
def getArtworkForShow (sh : CatalogShow) (posters : List (Int × String))
    (variant : ArtVariant) : String :=
  (jsLookup posters sh.id).getD (buildFallbackArtworkUrl sh variant)

structure Rating where
  avg : Rat
  count : Rat
deriving DecidableEq

/-- The source score out of ten used by ratingMap: imdbRating when it is a
number, else popularityScore times ten. -/
def sourceScore (sh : CatalogShow) : Option Rat :=
  match sh.imdbRating with
  | some q => some q
  | none => sh.popularityScore.map (· * 10)

/-- The average stored by ratingMap: the score halved, rounded to one
decimal via toFixed(1), clamped into [0, 5]. -/
def ratingAvg (q : Rat) : Rat := min 5 (max 0 (toFixed1 (q / 2)))

/-- The count stored by ratingMap: imdbVotes when present, else a
popularity-derived estimate clamped to at least 1. -/
def ratingCount (sh : CatalogShow) : Rat :=
  sh.imdbVotes.getD
    ((max 1 (jsRound ((sh.popularityScore.getD (1/2)) * 100000)) : Int) : Rat)

/-- The per-show body of the ratingMap forEach in part_002. -/
def ratingEntry (sh : CatalogShow) : Option Rating :=
  match sourceScore sh with
  | some q =>
    if q ≠ 0 ∧ 0 < q then some { avg := ratingAvg q, count := ratingCount sh }
    else none
  | none => none

/-- ratingMap in part_002, keyed by show id (later shows overwrite). -/
def ratingMap (shows : List CatalogShow) : List (Int × Rating) :=
  shows.foldl
    (fun m sh =>
      match ratingEntry sh with
      | some e => m ++ [(sh.id, e)]
      | none => m) []

/-- ratingMap lookup with the ?.avg ?? 0 default used by the sort comparator. -/
def avgOf (rmap : List (Int × Rating)) (sh : CatalogShow) : Rat :=
  match jsLookup rmap sh.id with
  | some e => e.avg
  | none => 0

/-- topRated in part_002: rated series, sorted by descending average, first
ten. -/
def topRated (shows : List CatalogShow) : List CatalogShow :=
  let rmap := ratingMap shows
  ((shows.filter fun sh =>
      sh.type == ShowType.series && (jsLookup rmap sh.id).isSome).mergeSort
    (fun a b => decide (avgOf rmap b ≤ avgOf rmap a))).take 10

def maxSafeInteger : Rat := 9007199254740991

/-- heroShows in part_002: spotlight shows ordered by heroPriority (absent
priorities sort last), the whole catalog when no spotlight entry exists,
first five. -/
def heroShows (shows : List CatalogShow) : List CatalogShow :=
  let spotlight :=
    (shows.filter fun sh => sh.collections.contains "spotlight").mergeSort
      (fun a b =>
        decide ((a.heroPriority.getD maxSafeInteger) ≤ (b.heroPriority.getD maxSafeInteger)))
  let picks := if spotlight.isEmpty then shows else spotlight
  picks.take 5

/-- What the hero section of the App renders. -/
inductive HeroView where
  | skeleton
  | errorView (message : String)
  | carousel (shows : List CatalogShow)
  | emptyView
deriving DecidableEq

/-- The heroSection conditional in the App component of part_002. -/
def heroSection (isLoading : Bool) (error : Option String)
    (shows : List CatalogShow) : HeroView :=
  if isLoading then .skeleton
  else
    match error with
    | some m => .errorView m
    | none =>
      if (heroShows shows).isEmpty then .emptyView
      else .carousel (heroShows shows)

/-- The rotation timer of HeroCarousel: current advances to (current+1) mod
the show count. -/
def advanceHero (n i : Nat) : Nat := (i + 1) % n

/-- goTo in HeroCarousel; the JavaScript remainder operator truncates toward
zero, which Int.tmod models. -/
def goTo (n i : Nat) (offset : Int) : Int :=
  Int.tmod ((i : Int) + offset + (n : Int)) (n : Int)

end AppMain

namespace AppGql

open JsCore Catalog AppMain

structure Review where
  starScore : Option Rat

/-- The Show shape the App.tsx variant reads for ratings (its GraphQL
backend supplies reviews). -/
structure GqlShow where
  id : Int
  title : String
  releaseYear : Option Int := none
  reviews : Option (List Review) := none

/-- The per-show body of the ratingMap in App.tsx: the numeric starScores of
the reviews, averaged when any exist. -/
def gqlRatingEntry (sh : GqlShow) : Option Rating :=
  let scores := (sh.reviews.getD []).filterMap (·.starScore)
  if scores.isEmpty then none
  else some { avg := (scores.foldl (· + ·) 0) / (scores.length : Rat)
              count := (scores.length : Rat) }

def gqlRatingMap (shows : List GqlShow) : List (Int × Rating) :=
  shows.foldl
    (fun m sh =>
      match gqlRatingEntry sh with
      | some e => m ++ [(sh.id, e)]
      | none => m) []

def gqlAvgOf (rmap : List (Int × Rating)) (sh : GqlShow) : Rat :=
  match jsLookup rmap sh.id with
  | some e => e.avg
  | none => 0

/-- topRated in App.tsx: every rated show, sorted by descending average,
first ten (no type filter in this variant). -/
def gqlTopRated (shows : List GqlShow) : List GqlShow :=
  let rmap := gqlRatingMap shows
  ((shows.filter fun sh => (jsLookup rmap sh.id).isSome).mergeSort
    (fun a b => decide (gqlAvgOf rmap b ≤ gqlAvgOf rmap a))).take 10

end AppGql

open JsCore Catalog

/-- Sample show used to instantiate witnesses. -/
def sampleShow : CatalogShow :=
  { id := 1, title := "The Crown", type := .series }

theorem jsLookup_mem {α : Type} {m : List (Int × α)} {k : Int} {v : α}
    (h : jsLookup m k = some v) : (k, v) ∈ m := by
  induction m with
  | nil => simp [jsLookup] at h
  | cons p rest ih =>
    obtain ⟨k', v'⟩ := p
    rw [jsLookup] at h
    rcases hr : jsLookup rest k with _ | w
    · rw [hr] at h
      by_cases hk : k' = k
      · rw [if_pos hk] at h
        injection h with hv
        subst hk
        subst hv
        exact List.mem_cons_self _ _
      · rw [if_neg hk] at h
        cases h
    · rw [hr] at h
      cases h
      exact List.mem_cons_of_mem _ (ih hr)

theorem readStored_persist (l : List Int) :
    AppMain.readStoredMyList (AppMain.persistMyList l) =
      l.map (fun i => JsNumber.finite (i : Rat)) := by
  induction l with
  | nil => rfl
  | cons a t ih =>
    simp only [AppMain.persistMyList, AppMain.readStoredMyList, List.map_cons,
      List.filter_cons] at ih ⊢
    simpa [AppMain.coerceElem, JsNumber.isFinite] using ih

/-- Claim C9: readStoredMyList is total and never throws; every failure case
(absent value, empty string, malformed JSON, non-array JSON) yields the empty
list, an array is element-wise coerced with Number and filtered to finite
values, and consequently every returned element is a finite number. -/
theorem claim_C9 (raw : AppMain.StoredRaw) (xs : List Json) (j : Json) :
    (∀ x ∈ AppMain.readStoredMyList raw, x.isFinite = true)
    ∧ AppMain.readStoredMyList .absent = []
    ∧ AppMain.readStoredMyList .emptyStr = []
    ∧ AppMain.readStoredMyList .malformed = []
    ∧ ((∀ ys, j ≠ .arr ys) → AppMain.readStoredMyList (.parsed j) = [])
    ∧ AppMain.readStoredMyList (.parsed (.arr xs)) =
        (xs.map AppMain.coerceElem).filter JsNumber.isFinite := by
  refine ⟨?_, rfl, rfl, rfl, ?_, rfl⟩
  · intro x hx
    cases raw with
    | absent => cases hx
    | emptyStr => cases hx
    | malformed => cases hx
    | parsed j' =>
      cases j' with
      | arr ys => exact (List.mem_filter.mp hx).2
      | null => cases hx
      | bool b => cases hx
      | num q => cases hx
      | str s => cases hx
      | obj o => cases hx
  · intro hne
    cases j with
    | arr ys => exact absurd rfl (hne ys)
    | null => rfl
    | bool b => rfl
    | num q => rfl
    | str s => rfl
    | obj o => rfl

theorem claim_C9_witness :
    AppMain.readStoredMyList (.parsed (.str "a")) = [] :=
  (claim_C9 (.parsed (.str "a")) [] (.str "a")).2.2.2.2.1
    (fun _ h => Json.noConfusion h)

/-- Claim C2: toggling a member id removes it (the code filters out every
occurrence), toggling a non-member appends it at the end, and the persisted
storage value is the JSON encoding of the toggled list, which reads back as
exactly that list of numbers. -/
theorem claim_C2 (prev : List Int) (showId : Int) :
    (showId ∈ prev →
      AppMain.toggleMyList prev showId = prev.filter (fun i => i != showId))
    ∧ (showId ∉ prev →
      AppMain.toggleMyList prev showId = prev ++ [showId])
    ∧ AppMain.readStoredMyList (AppMain.persistMyList (AppMain.toggleMyList prev showId)) =
        (AppMain.toggleMyList prev showId).map (fun i => JsNumber.finite (i : Rat)) := by
  refine ⟨?_, ?_, readStored_persist _⟩
  · intro h
    rw [AppMain.toggleMyList, if_pos]
    exact List.elem_iff.mpr h
  · intro h
    rw [AppMain.toggleMyList, if_neg]
    intro hc
    exact h (List.elem_iff.mp hc)

theorem claim_C2_witness :
    ((2 : Int) ∈ [1, 2] ∧
      AppMain.toggleMyList [1, 2] 2 = [1, 2].filter (fun i => i != 2)) :=
  ⟨by decide, (claim_C2 [1, 2] 2).1 (by decide)⟩

/-- Claim C5: for a non-empty carousel the index stays in range - the timer
advances i to (i+1) mod n, the previous and next controls compute
(i-1+n) mod n and (i+1) mod n, both controls land inside 0..n-1, and a
forward step followed by a backward step restores the index. -/
theorem claim_C5 (n i : Nat) (hn : 0 < n) (hi : i < n) :
    AppMain.advanceHero n i = (i + 1) % n
    ∧ AppMain.advanceHero n i < n
    ∧ AppMain.goTo n i 1 = (((i + 1) % n : Nat) : Int)
    ∧ AppMain.goTo n i (-1) = (((i + n - 1) % n : Nat) : Int)
    ∧ (0 ≤ AppMain.goTo n i 1 ∧ AppMain.goTo n i 1 < n)
    ∧ (0 ≤ AppMain.goTo n i (-1) ∧ AppMain.goTo n i (-1) < n)
    ∧ AppMain.goTo n ((i + 1) % n) (-1) = (i : Int) := by
  have hplus : AppMain.goTo n i 1 = (((i + 1) % n : Nat) : Int) := by
    rw [AppMain.goTo, Int.tmod_eq_emod (by omega) (by omega)]
    have h1 : ((i : Int) + 1 + n) = (((i + 1 + n : Nat) : Int)) := by push_cast; ring
    rw [h1, ← Int.natCast_mod]
    congr 1
    exact Nat.add_mod_right _ _
  have hminus : ∀ j : Nat, j < n →
      AppMain.goTo n j (-1) = (((j + n - 1) % n : Nat) : Int) := by
    intro j _
    rw [AppMain.goTo, Int.tmod_eq_emod (by omega) (by omega)]
    have h1 : ((j : Int) + (-1) + n) = (((j + n - 1 : Nat) : Int)) := by omega
    rw [h1, ← Int.natCast_mod]
  refine ⟨rfl, Nat.mod_lt _ hn, hplus, hminus i hi, ?_, ?_, ?_⟩
  · constructor
    · rw [hplus]; exact_mod_cast Nat.zero_le _
    · rw [hplus]; exact_mod_cast Nat.mod_lt _ hn
  · constructor
    · rw [hminus i hi]; exact_mod_cast Nat.zero_le _
    · rw [hminus i hi]; exact_mod_cast Nat.mod_lt _ hn
  · rw [hminus ((i + 1) % n) (Nat.mod_lt _ hn)]
    have key : ((i + 1) % n + n - 1) % n = i := by
      rcases Nat.lt_or_ge (i + 1) n with hlt | hge
      · rw [Nat.mod_eq_of_lt hlt]
        have h2 : i + 1 + n - 1 = i + n := by omega
        rw [h2, Nat.add_mod_right, Nat.mod_eq_of_lt hi]
      · have he : i + 1 = n := by omega
        rw [he, Nat.mod_self]
        have h2 : 0 + n - 1 = i := by omega
        rw [h2, Nat.mod_eq_of_lt hi]
    rw [key]

theorem claim_C5_witness :
    AppMain.advanceHero 3 1 = (1 + 1) % 3 :=
  (claim_C5 3 1 (by decide) (by decide)).1

/-- Claim C7: with the catalog fetch finished, no error, and an empty show
list, the hero section renders the empty state rather than the skeleton,
the error state or the carousel. -/
theorem claim_C7 :
    AppMain.heroSection false none [] = AppMain.HeroView.emptyView := by
  simp [AppMain.heroSection, AppMain.heroShows, List.mergeSort_nil]

/-- Claim C6: artwork resolution is total - when the poster map has no entry
for the show id it returns the deterministic placeholder URL built from the
lower-cased, whitespace-hyphenated, URI-encoded title and the variant's
fixed dimensions, and that fallback is never the empty string. -/
theorem claim_C6 (sh : CatalogShow) (posters : List (Int × String))
    (v : AppMain.ArtVariant) (h : jsLookup posters sh.id = none) :
    AppMain.getArtworkForShow sh posters v =
      "https://picsum.photos/seed/" ++
        AppMain.encodeURIComponent ⟨AppMain.collapseWs (AppMain.jsToLowerStr sh.title).data⟩ ++
        "/" ++ (if v = .hero then "1600/900" else "500/750")
    ∧ AppMain.getArtworkForShow sh posters v ≠ "" := by
  have hb : AppMain.getArtworkForShow sh posters v = AppMain.buildFallbackArtworkUrl sh v := by
    rw [AppMain.getArtworkForShow, h]
    rfl
  constructor
  · rw [hb, AppMain.buildFallbackArtworkUrl.eq_def]
    cases v <;> simp
  · rw [hb, AppMain.buildFallbackArtworkUrl.eq_def]
    intro heq
    have hlen := congrArg String.length heq
    have h27 : ("https://picsum.photos/seed/" : String).length = 27 := by decide
    have hsl : ("/" : String).length = 1 := by decide
    have hz : ("" : String).length = 0 := by decide
    simp only [String.length_append, h27, hsl, hz] at hlen
    omega

theorem claim_C6_witness :
    AppMain.getArtworkForShow sampleShow [] AppMain.ArtVariant.hero ≠ "" :=
  (claim_C6 sampleShow [] AppMain.ArtVariant.hero rfl).2

/-- The entry a single show contributes to the OMDb details map: present
exactly when its own lookup returned parsed details. -/
def omdbEntry (env : CatalogShow → Omdb.OmdbOutcome) (s : CatalogShow) :
    Option (Int × Omdb.OmdbDetails) :=
  match Omdb.fetchDetails (env s) with
  | .ok (some d) => some (s.id, d)
  | _ => none

theorem omdbFold (env : CatalogShow → Omdb.OmdbOutcome) (shows : List CatalogShow)
    (acc : List (Int × Omdb.OmdbDetails)) :
    shows.foldl (fun acc s =>
      match Omdb.fetchDetails (env s) with
      | .error _ => acc
      | .ok none => acc
      | .ok (some d) => acc ++ [(s.id, d)]) acc
    = acc ++ shows.filterMap (omdbEntry env) := by
  induction shows generalizing acc with
  | nil => simp
  | cons s rest ih =>
    rw [List.foldl_cons, List.filterMap_cons]
    cases hfd : Omdb.fetchDetails (env s) with
    | error e => simp only [hfd, omdbEntry]; rw [ih]
    | ok o =>
      cases o with
      | none => simp only [hfd, omdbEntry]; rw [ih]
      | some d =>
        simp only [hfd, omdbEntry]
        rw [ih, List.append_assoc]
        rfl

/-- The entry a single show contributes to the hero-clip map: present exactly
when its own lookup resolved with a truthy primary or secondary URL. -/
def clipEntry (env : CatalogShow → GiphyPair.GiphyOutcome) (s : CatalogShow) :
    Option (Int × GiphyPair.HeroClip) :=
  match GiphyPair.fetchClipPair (env s) with
  | .ok c =>
    if truthyStr c.primary || truthyStr c.secondary then some (s.id, c) else none
  | .error _ => none

theorem clipLoop_ok_inv (env : CatalogShow → GiphyPair.GiphyOutcome)
    (shows : List CatalogShow) (acc m : List (Int × GiphyPair.HeroClip))
    (h : GiphyPair.clipLoop env shows acc = .ok m) :
    m = acc ++ shows.filterMap (clipEntry env) := by
  induction shows generalizing acc with
  | nil =>
    rw [GiphyPair.clipLoop] at h
    cases h
    simp
  | cons s rest ih =>
    rw [GiphyPair.clipLoop] at h
    cases hc : GiphyPair.fetchClipPair (env s) with
    | error e => rw [hc] at h; cases h
    | ok c =>
      rw [hc] at h
      have hm := ih _ h
      rw [List.filterMap_cons]
      by_cases ht : (truthyStr c.primary || truthyStr c.secondary) = true
      · rw [if_pos ht] at hm
        simp only [clipEntry, hc, ht, if_pos]
        rw [hm, List.append_assoc]
        rfl
      · rw [if_neg ht] at hm
        simp only [clipEntry, hc, ht, if_neg]
        simpa using hm

theorem clipLoop_noThrow (env : CatalogShow → GiphyPair.GiphyOutcome)
    (shows : List CatalogShow) (acc : List (Int × GiphyPair.HeroClip))
    (h : ∀ s ∈ shows, env s ≠ .threw) :
    GiphyPair.clipLoop env shows acc = .ok (acc ++ shows.filterMap (clipEntry env)) := by
  induction shows generalizing acc with
  | nil => rw [GiphyPair.clipLoop]; simp
  | cons s rest ih =>
    have hs : env s ≠ .threw := h s (List.mem_cons_self _ _)
    have hrest : ∀ t ∈ rest, env t ≠ .threw := fun t ht => h t (List.mem_cons_of_mem _ ht)
    rw [GiphyPair.clipLoop]
    cases hc : GiphyPair.fetchClipPair (env s) with
    | error e =>
      exfalso
      cases he : env s with
      | threw => exact hs he
      | notOk st => rw [he] at hc; cases hc
      | okBody gifs => rw [he] at hc; cases hc
    | ok c =>
      rw [List.filterMap_cons]
      by_cases ht : (truthyStr c.primary || truthyStr c.secondary) = true
      · simp only [clipEntry, hc, ht, if_pos]
        rw [ih _ hrest, List.append_assoc]
        rfl
      · simp only [clipEntry, hc, ht, if_neg]
        rw [ih _ hrest]
        simp

/-- Counterexample to claim C1 as stated: a single show whose Giphy request
itself throws makes fetchHeroClips reject the whole batch instead of
returning normally. -/
theorem claim_C1_counterexample :
    GiphyPair.fetchHeroClips [sampleShow] (some "key")
      (fun _ => GiphyPair.GiphyOutcome.threw) = .error () := by
  rw [GiphyPair.fetchHeroClips]
  rw [if_neg (by decide)]
  rw [GiphyPair.clipLoop]
  rfl

/-- Claim C1 as amended: fetchOmdbDetails always resolves - each failing show
(thrown request or non-ok response) is simply absent and every other entry
depends only on that show's own lookup; fetchHeroClips behaves the same way
provided no individual request throws (a non-ok Giphy response degrades to an
absent entry, but a thrown Giphy request rejects the whole batch). -/
theorem claim_C1_amended (shows : List CatalogShow) (key : String) (gkey : Option String)
    (oenv : CatalogShow → Omdb.OmdbOutcome) (genv : CatalogShow → GiphyPair.GiphyOutcome)
    (hg : ∀ s ∈ shows, genv s ≠ .threw) :
    Omdb.fetchOmdbDetails shows key oenv =
      .ok (if jsTrim key = "" ∨ shows.isEmpty then []
           else shows.filterMap (omdbEntry oenv))
    ∧ GiphyPair.fetchHeroClips shows gkey genv =
      .ok (if gkey.map jsTrim = none ∨ gkey.map jsTrim = some "" ∨ shows.isEmpty then []
           else shows.filterMap (clipEntry genv)) := by
  constructor
  · rw [Omdb.fetchOmdbDetails]
    by_cases hk : jsTrim key = "" ∨ shows.isEmpty
    · rw [if_pos hk, if_pos hk]
    · rw [if_neg hk, if_neg hk, omdbFold]
      rfl
  · rw [GiphyPair.fetchHeroClips]
    by_cases hk : gkey.map jsTrim = none ∨ gkey.map jsTrim = some "" ∨ shows.isEmpty
    · rw [if_pos hk, if_pos hk]
    · rw [if_neg hk, if_neg hk, clipLoop_noThrow _ _ _ hg]
      rfl

theorem claim_C1_witness :
    Omdb.fetchOmdbDetails [sampleShow] "key" (fun _ => Omdb.OmdbOutcome.threw) =
      .ok (if jsTrim "key" = "" ∨ ([sampleShow] : List CatalogShow).isEmpty then []
           else [sampleShow].filterMap (omdbEntry (fun _ => Omdb.OmdbOutcome.threw))) :=
  (claim_C1_amended [sampleShow] "key" (some "k")
    (fun _ => Omdb.OmdbOutcome.threw) (fun _ => GiphyPair.GiphyOutcome.notOk 500)
    (fun _ _ h => GiphyPair.GiphyOutcome.noConfusion h)).1

/-- Claim C8: whenever fetchHeroClips resolves to a map, every key is the id
of a show in the input whose own lookup produced that clip pair with a truthy
primary or secondary URL (so at least one side is non-null); an id all of
whose shows yielded neither clip is absent; and a missing key, a blank key,
or an empty show list each yield the empty map. -/
theorem claim_C8 (shows : List CatalogShow) (key : Option String) (k' : String)
    (env : CatalogShow → GiphyPair.GiphyOutcome) (m : List (Int × GiphyPair.HeroClip))
    (h : GiphyPair.fetchHeroClips shows key env = .ok m) :
    (∀ p ∈ m, (∃ s ∈ shows, s.id = p.1 ∧ GiphyPair.fetchClipPair (env s) = .ok p.2)
      ∧ (p.2.primary ≠ none ∨ p.2.secondary ≠ none))
    ∧ (∀ i : Int,
        (∀ s ∈ shows, s.id = i → ∃ c, GiphyPair.fetchClipPair (env s) = .ok c ∧
          truthyStr c.primary = false ∧ truthyStr c.secondary = false) →
        i ∉ m.map Prod.fst)
    ∧ GiphyPair.fetchHeroClips shows none env = .ok []
    ∧ (jsTrim k' = "" → GiphyPair.fetchHeroClips shows (some k') env = .ok [])
    ∧ GiphyPair.fetchHeroClips ([] : List CatalogShow) key env = .ok [] := by
  have hm : ∀ p ∈ m, ∃ s ∈ shows, clipEntry env s = some p := by
    intro p hp
    rw [GiphyPair.fetchHeroClips] at h
    split at h
    · cases h
      cases hp
    · have := clipLoop_ok_inv env shows [] m h
      rw [List.nil_append] at this
      rw [this] at hp
      exact List.mem_filterMap.mp hp
  refine ⟨?_, ?_, ?_, ?_, ?_⟩
  · intro p hp
    obtain ⟨s, hs, hentry⟩ := hm p hp
    cases hc : GiphyPair.fetchClipPair (env s) with
    | error e => simp [clipEntry, hc] at hentry
    | ok c =>
      simp only [clipEntry, hc] at hentry
      by_cases ht : (truthyStr c.primary || truthyStr c.secondary) = true
      · rw [if_pos ht] at hentry
        cases hentry
        refine ⟨⟨s, hs, rfl, hc⟩, ?_⟩
        rcases Bool.or_eq_true_iff.mp ht with h1 | h1
        · left
          cases hcp : c.primary with
          | none => rw [hcp] at h1; simp [truthyStr] at h1
          | some u => exact fun hx => Option.noConfusion hx
        · right
          cases hcp : c.secondary with
          | none => rw [hcp] at h1; simp [truthyStr] at h1
          | some u => exact fun hx => Option.noConfusion hx
      · rw [if_neg ht] at hentry
        cases hentry
  · intro i hall hmem
    obtain ⟨p, hp, hpi⟩ := List.mem_map.mp hmem
    obtain ⟨s, hs, hentry⟩ := hm p hp
    cases hc : GiphyPair.fetchClipPair (env s) with
    | error e => simp [clipEntry, hc] at hentry
    | ok c =>
      simp only [clipEntry, hc] at hentry
      by_cases ht : (truthyStr c.primary || truthyStr c.secondary) = true
      · rw [if_pos ht] at hentry
        cases hentry
        obtain ⟨c', hc', hp1, hp2⟩ := hall s hs hpi
        rw [hc] at hc'
        cases hc'
        rw [hp1, hp2] at ht
        cases ht
      · rw [if_neg ht] at hentry
        cases hentry
  · simp [GiphyPair.fetchHeroClips]
  · intro hk
    simp [GiphyPair.fetchHeroClips, hk]
  · simp [GiphyPair.fetchHeroClips]

theorem claim_C8_witness :
    GiphyPair.fetchHeroClips [sampleShow] none
      (fun _ => GiphyPair.GiphyOutcome.okBody [{ original_mp4 := some "a.mp4" }]) =
      .ok [] :=
  (claim_C8 [sampleShow] (some "k") "x"
    (fun _ => GiphyPair.GiphyOutcome.okBody [{ original_mp4 := some "a.mp4" }])
    [(1, { primary := some "a.mp4", secondary := none })] (by rfl)).2.2.1

/-- Sample seed used to instantiate witnesses. -/
def sampleSeed : Seed :=
  { title := "Ozark", type := .series, releaseYear := some 2017 }

/-- Claim C3: fetchShows preserves the length and order of the seed catalog,
keeps every entry's id and title, and merges OMDb data so that a field the
OMDb entry does not supply keeps its seed value; fields the merge never
touches are always the seed values. -/
theorem claim_C3 (seeds : List Seed) (key : Option String)
    (dmap : List (Int × Omdb.OmdbDetails)) :
    (Gql.fetchShows seeds key dmap).length = seeds.length
    ∧ (∀ (i : Nat) (sd : Seed) (outi : CatalogShow),
        seeds[i]? = some sd →
        (Gql.fetchShows seeds key dmap)[i]? = some outi →
        outi.title = sd.title
        ∧ outi.id = sd.id.getD ((i : Int) + 1)
        ∧ outi.collections = sd.collections
        ∧ outi.popularityScore = sd.popularityScore
        ∧ outi.heroPriority = sd.heroPriority
        ∧ outi.top10Week = sd.top10Week
        ∧ outi.weeklyHoursViewedMillions = sd.weeklyHoursViewedMillions
        ∧ outi.netflixUrl = sd.netflixUrl
        ∧ outi.imdbId = sd.imdbId
        ∧ (jsLookup dmap (sd.id.getD ((i : Int) + 1)) = none →
            outi = Gql.seedToShow i sd)
        ∧ (∀ o, jsLookup dmap (sd.id.getD ((i : Int) + 1)) = some o →
            (o.rated = none → outi.maturityRating = sd.maturityRating)
            ∧ (o.runtimeMinutes = none → outi.runtimeMinutes = sd.runtimeMinutes)
            ∧ (o.plot = none → outi.synopsis = sd.synopsis)
            ∧ (o.poster = none → outi.poster = none)
            ∧ (o.imdbRating = none → outi.imdbRating = none)
            ∧ (o.imdbVotes = none → outi.imdbVotes = none)
            ∧ (o.year = none → outi.releaseYear = sd.releaseYear)
            ∧ (o.type = none → outi.type = sd.type)
            ∧ ((o.genres = none ∨ o.genres = some []) → outi.genres = none))) := by
  have hlen : (Gql.assignIds seeds).length = seeds.length := by
    rw [Gql.assignIds, List.mapIdx_eq_enum_map, List.length_map, List.enum_length]
  constructor
  · rw [Gql.fetchShows]
    split
    · exact hlen
    · split
      · exact hlen
      · rw [List.length_map]
        exact hlen
  · intro i sd outi hsd hout
    have hcat : (Gql.assignIds seeds)[i]? = some (Gql.seedToShow i sd) := by
      rw [Gql.assignIds, List.getElem?_mapIdx, hsd]
      rfl
    -- Resolve which branch fetchShows took, then compute fields.
    rw [Gql.fetchShows] at hout
    split at hout
    · -- no key: the catalog entry itself
      rw [hcat] at hout
      cases hout
      refine ⟨rfl, rfl, rfl, rfl, rfl, rfl, rfl, rfl, rfl, fun _ => rfl, ?_⟩
      intro o _
      exact ⟨fun _ => rfl, fun _ => rfl, fun _ => rfl, fun _ => rfl, fun _ => rfl,
        fun _ => rfl, fun _ => rfl, fun _ => rfl, fun _ => rfl⟩
    · split at hout
      · rw [hcat] at hout
        cases hout
        refine ⟨rfl, rfl, rfl, rfl, rfl, rfl, rfl, rfl, rfl, fun _ => rfl, ?_⟩
        intro o _
        exact ⟨fun _ => rfl, fun _ => rfl, fun _ => rfl, fun _ => rfl, fun _ => rfl,
          fun _ => rfl, fun _ => rfl, fun _ => rfl, fun _ => rfl⟩
      · have hout2 : outi = Gql.mergeOne dmap (Gql.seedToShow i sd) := by
          rw [List.getElem?_map, hcat] at hout
          cases hout
          rfl
        subst hout2
        have hid : (Gql.seedToShow i sd).id = sd.id.getD ((i : Int) + 1) := rfl
        rw [Gql.mergeOne]
        cases hlk : jsLookup dmap (sd.id.getD ((i : Int) + 1)) with
        | none =>
          rw [hid, hlk]
          refine ⟨rfl, rfl, rfl, rfl, rfl, rfl, rfl, rfl, rfl, fun _ => rfl, ?_⟩
          intro o ho
          exact Option.noConfusion ho
        | some o =>
          rw [hid, hlk]
          refine ⟨rfl, rfl, rfl, rfl, rfl, rfl, rfl, rfl, rfl, ?_, ?_⟩
          · intro hnone
            exact Option.noConfusion hnone
          · intro o' ho'
            injection ho' with ho''
            subst ho''
            refine ⟨?_, ?_, ?_, ?_, ?_, ?_, ?_, ?_, ?_⟩
            · intro hn; simp [hn, Gql.seedToShow]
            · intro hn; simp [hn, Gql.seedToShow]
            · intro hn; simp [hn, Gql.seedToShow]
            · intro hn; simp [hn, Gql.seedToShow]
            · intro hn; simp [hn, Gql.seedToShow]
            · intro hn; simp [hn, Gql.seedToShow]
            · intro hn; simp [hn, Gql.seedToShow, Option.or_self]
            · intro hn; simp [hn, Gql.seedToShow]
            · rintro (hn | hn) <;> simp [hn, Gql.seedToShow]

theorem claim_C3_witness :
    (Gql.seedToShow 0 sampleSeed).title = sampleSeed.title :=
  ((claim_C3 [sampleSeed] none []).2 0 sampleSeed (Gql.seedToShow 0 sampleSeed)
    rfl rfl).1

theorem topTen_spec {α : Type} (pool : List α) (rank : α → Rat) :
    (∀ x ∈ (pool.mergeSort (fun a b => decide (rank b ≤ rank a))).take 10, x ∈ pool)
    ∧ ((pool.mergeSort (fun a b => decide (rank b ≤ rank a))).take 10).length ≤ 10
    ∧ ((pool.mergeSort (fun a b => decide (rank b ≤ rank a))).take 10).Pairwise
        (fun a b => rank b ≤ rank a)
    ∧ (∀ a ∈ pool, a ∉ (pool.mergeSort (fun a b => decide (rank b ≤ rank a))).take 10 →
        ∀ b ∈ (pool.mergeSort (fun a b => decide (rank b ≤ rank a))).take 10,
          rank a ≤ rank b) := by
  have htrans : ∀ (a b c : α), decide (rank b ≤ rank a) = true →
      decide (rank c ≤ rank b) = true → decide (rank c ≤ rank a) = true := by
    intro a b c hab hbc
    rw [decide_eq_true_eq] at *
    exact le_trans hbc hab
  have htot : ∀ (a b : α),
      (decide (rank b ≤ rank a) || decide (rank a ≤ rank b)) = true := by
    intro a b
    rcases le_total (rank b) (rank a) with h | h
    · simp [h]
    · simp [h]
  have hsorted :=
    @List.sorted_mergeSort α (fun a b => decide (rank b ≤ rank a)) htrans htot pool
  have hsorted' :
      (pool.mergeSort (fun a b => decide (rank b ≤ rank a))).Pairwise
        (fun a b => rank b ≤ rank a) :=
    hsorted.imp fun h => decide_eq_true_eq.mp h
  refine ⟨?_, ?_, ?_, ?_⟩
  · intro x hx
    exact List.mem_mergeSort.mp ((List.take_sublist 10 _).mem hx)
  · rw [List.length_take]
    exact inf_le_left
  · exact List.Pairwise.sublist (List.take_sublist 10 _) hsorted'
  · intro a ha hnotin b hb
    have hamem : a ∈ pool.mergeSort (fun a b => decide (rank b ≤ rank a)) :=
      List.mem_mergeSort.mpr ha
    rw [← List.take_append_drop 10 (pool.mergeSort (fun a b => decide (rank b ≤ rank a)))]
      at hamem
    rcases List.mem_append.mp hamem with h | h
    · exact absurd h hnotin
    · have hpair := hsorted'
      rw [← List.take_append_drop 10
        (pool.mergeSort (fun a b => decide (rank b ≤ rank a)))] at hpair
      exact (List.pairwise_append.mp hpair).2.2 b hb a h

/-- Claim C4 as amended: in both variants the Top Rated row contains only
rated shows (and in the part_002 variant only series), has at most ten
entries, and is sorted by non-increasing average; the omitted-shows bound
holds relative to the row's own candidate pool - every omitted rated show
passing the row's type filter rates no higher than every included one. -/
theorem claim_C4_amended (shows : List CatalogShow) (gshows : List AppGql.GqlShow) :
    (∀ sh ∈ AppMain.topRated shows,
      sh ∈ shows ∧ sh.type = ShowType.series
        ∧ (jsLookup (AppMain.ratingMap shows) sh.id).isSome = true)
    ∧ (AppMain.topRated shows).length ≤ 10
    ∧ (AppMain.topRated shows).Pairwise
        (fun a b => AppMain.avgOf (AppMain.ratingMap shows) b ≤
          AppMain.avgOf (AppMain.ratingMap shows) a)
    ∧ (∀ a ∈ shows, a.type = ShowType.series →
        (jsLookup (AppMain.ratingMap shows) a.id).isSome = true →
        a ∉ AppMain.topRated shows →
        ∀ b ∈ AppMain.topRated shows,
          AppMain.avgOf (AppMain.ratingMap shows) a ≤
            AppMain.avgOf (AppMain.ratingMap shows) b)
    ∧ (∀ sh ∈ AppGql.gqlTopRated gshows,
        sh ∈ gshows ∧ (jsLookup (AppGql.gqlRatingMap gshows) sh.id).isSome = true)
    ∧ (AppGql.gqlTopRated gshows).length ≤ 10
    ∧ (AppGql.gqlTopRated gshows).Pairwise
        (fun a b => AppGql.gqlAvgOf (AppGql.gqlRatingMap gshows) b ≤
          AppGql.gqlAvgOf (AppGql.gqlRatingMap gshows) a)
    ∧ (∀ a ∈ gshows, (jsLookup (AppGql.gqlRatingMap gshows) a.id).isSome = true →
        a ∉ AppGql.gqlTopRated gshows →
        ∀ b ∈ AppGql.gqlTopRated gshows,
          AppGql.gqlAvgOf (AppGql.gqlRatingMap gshows) a ≤
            AppGql.gqlAvgOf (AppGql.gqlRatingMap gshows) b) := by
  have hspec := topTen_spec
    (shows.filter fun sh =>
      sh.type == ShowType.series && (jsLookup (AppMain.ratingMap shows) sh.id).isSome)
    (AppMain.avgOf (AppMain.ratingMap shows))
  have hgspec := topTen_spec
    (gshows.filter fun sh => (jsLookup (AppGql.gqlRatingMap gshows) sh.id).isSome)
    (AppGql.gqlAvgOf (AppGql.gqlRatingMap gshows))
  have ht : AppMain.topRated shows =
      ((shows.filter fun sh =>
        sh.type == ShowType.series &&
          (jsLookup (AppMain.ratingMap shows) sh.id).isSome).mergeSort
        (fun a b => decide (AppMain.avgOf (AppMain.ratingMap shows) b ≤
          AppMain.avgOf (AppMain.ratingMap shows) a))).take 10 := rfl
  have hgt : AppGql.gqlTopRated gshows =
      ((gshows.filter fun sh =>
        (jsLookup (AppGql.gqlRatingMap gshows) sh.id).isSome).mergeSort
        (fun a b => decide (AppGql.gqlAvgOf (AppGql.gqlRatingMap gshows) b ≤
          AppGql.gqlAvgOf (AppGql.gqlRatingMap gshows) a))).take 10 := rfl
  obtain ⟨hmem, hlen, hsort, homit⟩ := hspec
  obtain ⟨hgmem, hglen, hgsort, hgomit⟩ := hgspec
  refine ⟨?_, ?_, ?_, ?_, ?_, ?_, ?_, ?_⟩
  · intro sh hsh
    rw [ht] at hsh
    have := List.mem_filter.mp (hmem sh hsh)
    refine ⟨this.1, ?_, ?_⟩
    · have h2 := (Bool.and_eq_true _ _).mp this.2 |>.1
      exact beq_iff_eq.mp h2
    · exact (Bool.and_eq_true _ _).mp this.2 |>.2
  · rw [ht]; exact hlen
  · rw [ht]; exact hsort
  · intro a ha hser hrated hnot b hb
    rw [ht] at hnot hb
    refine homit a ?_ hnot b hb
    exact List.mem_filter.mpr ⟨ha, by rw [Bool.and_eq_true, beq_iff_eq]; exact ⟨hser, hrated⟩⟩
  · intro sh hsh
    rw [hgt] at hsh
    have := List.mem_filter.mp (hgmem sh hsh)
    exact ⟨this.1, this.2⟩
  · rw [hgt]; exact hglen
  · rw [hgt]; exact hgsort
  · intro a ha hrated hnot b hb
    rw [hgt] at hnot hb
    refine hgomit a ?_ hnot b hb
    exact List.mem_filter.mpr ⟨ha, hrated⟩

/-- A movie with the top source score: rated, but filtered out of the
part_002 Top Rated row by its type. -/
def movieM : CatalogShow :=
  { id := 1, title := "M", type := .movie, imdbRating := some 10, imdbVotes := some 6 }

/-- A series with a low source score: the only entry the row keeps. -/
def seriesS : CatalogShow :=
  { id := 2, title := "S", type := .series, imdbRating := some 2, imdbVotes := some 5 }

def cs4 : List CatalogShow := [movieM, seriesS]

theorem ratingEntry_movieM : AppMain.ratingEntry movieM = some ⟨5, 6⟩ := by
  simp only [AppMain.ratingEntry, AppMain.sourceScore, AppMain.ratingAvg,
    AppMain.ratingCount, movieM]
  norm_num [toFixed1, Int.floor_eq_iff]

theorem ratingEntry_seriesS : AppMain.ratingEntry seriesS = some ⟨1, 5⟩ := by
  simp only [AppMain.ratingEntry, AppMain.sourceScore, AppMain.ratingAvg,
    AppMain.ratingCount, seriesS]
  norm_num [toFixed1, Int.floor_eq_iff]

theorem ratingMap_cs4 :
    AppMain.ratingMap cs4 = [(1, ⟨5, 6⟩), (2, ⟨1, 5⟩)] := by
  simp only [AppMain.ratingMap, cs4, List.foldl_cons, List.foldl_nil,
    ratingEntry_movieM, ratingEntry_seriesS]
  rfl

theorem topRated_cs4 : AppMain.topRated cs4 = [seriesS] := by
  have ht : AppMain.topRated cs4 =
      ((cs4.filter fun sh =>
        sh.type == ShowType.series && (jsLookup (AppMain.ratingMap cs4) sh.id).isSome).mergeSort
        (fun a b => decide (AppMain.avgOf (AppMain.ratingMap cs4) b ≤
          AppMain.avgOf (AppMain.ratingMap cs4) a))).take 10 := rfl
  rw [ht, ratingMap_cs4]
  have hfil : cs4.filter (fun sh =>
      sh.type == ShowType.series &&
        (jsLookup [(1, (⟨5, 6⟩ : AppMain.Rating)), (2, ⟨1, 5⟩)] sh.id).isSome) = [seriesS] := by
    simp only [cs4, List.filter_cons, List.filter_nil]
    rfl
  rw [hfil, List.mergeSort_singleton]
  rfl

/-- Counterexample to claim C4 as stated: in the part_002 Top Rated row the
omitted rated show movieM (average 5) rates strictly higher than the included
seriesS (average 1), because the row silently filters by type. -/
theorem claim_C4_counterexample :
    movieM ∈ cs4
    ∧ (jsLookup (AppMain.ratingMap cs4) movieM.id).isSome = true
    ∧ movieM ∉ AppMain.topRated cs4
    ∧ seriesS ∈ AppMain.topRated cs4
    ∧ AppMain.avgOf (AppMain.ratingMap cs4) seriesS <
        AppMain.avgOf (AppMain.ratingMap cs4) movieM := by
  rw [ratingMap_cs4, topRated_cs4]
  refine ⟨List.mem_cons_self _ _, rfl, ?_, List.mem_singleton.mpr rfl, ?_⟩
  · intro h
    rw [List.mem_singleton] at h
    exact absurd (congrArg CatalogShow.id h) (by decide)
  · have h1 : AppMain.avgOf [(1, (⟨5, 6⟩ : AppMain.Rating)), (2, ⟨1, 5⟩)] seriesS = 1 := rfl
    have h2 : AppMain.avgOf [(1, (⟨5, 6⟩ : AppMain.Rating)), (2, ⟨1, 5⟩)] movieM = 5 := rfl
    rw [h1, h2]
    norm_num

theorem claim_C4_witness :
    seriesS ∈ cs4 ∧ seriesS.type = ShowType.series
      ∧ (jsLookup (AppMain.ratingMap cs4) seriesS.id).isSome = true :=
  (claim_C4_amended cs4 []).1 seriesS (by rw [topRated_cs4]; exact List.mem_singleton.mpr rfl)

theorem ratingMapFold (shows : List CatalogShow) (acc : List (Int × AppMain.Rating)) :
    shows.foldl
      (fun m sh =>
        match AppMain.ratingEntry sh with
        | some e => m ++ [(sh.id, e)]
        | none => m) acc
    = acc ++ shows.filterMap (fun s => (AppMain.ratingEntry s).map fun e => (s.id, e)) := by
  induction shows generalizing acc with
  | nil => simp
  | cons s rest ih =>
    rw [List.foldl_cons, List.filterMap_cons]
    cases he : AppMain.ratingEntry s with
    | none => simp only [he, Option.map_none']; rw [ih]
    | some e =>
      simp only [he, Option.map_some']
      rw [ih, List.append_assoc]
      rfl

/-- A show whose OMDb vote count is literally zero: the rating map keeps the
zero as the count because the nullish-coalescing fallback only fires when
imdbVotes is absent. -/
def votesZeroShow : CatalogShow :=
  { id := 3, title := "B", type := .series, imdbRating := some 8, imdbVotes := some 0 }

theorem ratingEntry_votesZero : AppMain.ratingEntry votesZeroShow = some ⟨4, 0⟩ := by
  simp only [AppMain.ratingEntry, AppMain.sourceScore, AppMain.ratingAvg,
    AppMain.ratingCount, votesZeroShow]
  norm_num [toFixed1, Int.floor_eq_iff]

/-- Counterexample to claim C10 as stated: a show with a positive source
score but an explicit vote count of zero receives a rating-map entry whose
count is 0, not at least 1. -/
theorem claim_C10_counterexample :
    AppMain.ratingEntry votesZeroShow = some ⟨4, 0⟩
    ∧ jsLookup (AppMain.ratingMap [votesZeroShow]) 3 = some ⟨4, 0⟩
    ∧ ¬(1 ≤ (0 : Rat)) := by
  refine ⟨ratingEntry_votesZero, ?_, by norm_num⟩
  have hm : AppMain.ratingMap [votesZeroShow] = [(3, ⟨4, 0⟩)] := by
    simp only [AppMain.ratingMap, List.foldl_cons, List.foldl_nil, ratingEntry_votesZero]
    rfl
  rw [hm]
  rfl

theorem ratingEntry_some (sh : CatalogShow) (q : Rat)
    (hs : AppMain.sourceScore sh = some q) (hq : q ≠ 0 ∧ 0 < q) :
    AppMain.ratingEntry sh =
      some { avg := AppMain.ratingAvg q, count := AppMain.ratingCount sh } := by
  rw [AppMain.ratingEntry, hs]
  exact if_pos hq

theorem ratingEntry_none_of_nonpos (sh : CatalogShow) (q : Rat)
    (hs : AppMain.sourceScore sh = some q) (hq : ¬(q ≠ 0 ∧ 0 < q)) :
    AppMain.ratingEntry sh = none := by
  rw [AppMain.ratingEntry, hs]
  exact if_neg hq

theorem ratingEntry_none_of_none (sh : CatalogShow)
    (hs : AppMain.sourceScore sh = none) : AppMain.ratingEntry sh = none := by
  rw [AppMain.ratingEntry, hs]

/-- Claim C10 as amended: every rating-map entry comes from a show in the
list whose own source score is positive; its average is that score halved,
rounded to one decimal and clamped into [0, 5]; its count is at least 1 when
imdbVotes is absent, but an explicit imdbVotes value (possibly 0) is used
unchanged; shows with no positive source score get no entry. -/
theorem claim_C10_amended (shows : List CatalogShow) (sh : CatalogShow) (i : Int)
    (e : AppMain.Rating) :
    (jsLookup (AppMain.ratingMap shows) i = some e →
      ∃ s ∈ shows, s.id = i ∧ AppMain.ratingEntry s = some e)
    ∧ (AppMain.ratingEntry sh = some e →
        0 ≤ e.avg ∧ e.avg ≤ 5
        ∧ (sh.imdbVotes = none → 1 ≤ e.count)
        ∧ (∀ v, sh.imdbVotes = some v → e.count = v)
        ∧ ∃ q, AppMain.sourceScore sh = some q ∧ 0 < q
            ∧ e.avg = min 5 (max 0 (toFixed1 (q / 2))))
    ∧ (AppMain.ratingEntry sh = none ↔
        ∀ q, AppMain.sourceScore sh = some q → q ≤ 0) := by
  refine ⟨?_, ?_, ?_⟩
  · intro hlk
    have hmap : AppMain.ratingMap shows =
        shows.filterMap (fun s => (AppMain.ratingEntry s).map fun e => (s.id, e)) := by
      rw [AppMain.ratingMap, ratingMapFold]
      rfl
    rw [hmap] at hlk
    have hmem := jsLookup_mem hlk
    obtain ⟨s, hs, hse⟩ := List.mem_filterMap.mp hmem
    cases he : AppMain.ratingEntry s with
    | none => rw [he] at hse; cases hse
    | some e' =>
      rw [he] at hse
      injection hse with hse'
      have h1 : s.id = i := congrArg Prod.fst hse'
      have h2 : e' = e := congrArg Prod.snd hse'
      subst h2
      exact ⟨s, hs, h1, he⟩
  · intro he
    cases hs : AppMain.sourceScore sh with
    | none =>
      rw [ratingEntry_none_of_none sh hs] at he
      cases he
    | some q =>
      by_cases hq : q ≠ 0 ∧ 0 < q
      · rw [ratingEntry_some sh q hs hq] at he
        injection he with he'
        subst he'
        refine ⟨?_, ?_, ?_, ?_, ?_⟩
        · rw [AppMain.ratingAvg]
          exact le_min (by norm_num) (le_max_left _ _)
        · rw [AppMain.ratingAvg]
          exact min_le_left _ _
        · intro hv
          show (1 : Rat) ≤ AppMain.ratingCount sh
          rw [AppMain.ratingCount, hv, Option.getD_none]
          exact_mod_cast le_max_left 1 _
        · intro v hv
          show AppMain.ratingCount sh = v
          rw [AppMain.ratingCount, hv, Option.getD_some]
        · exact ⟨q, rfl, hq.2, rfl⟩
      · rw [ratingEntry_none_of_nonpos sh q hs hq] at he
        cases he
  · cases hs : AppMain.sourceScore sh with
    | none =>
      rw [ratingEntry_none_of_none sh hs]
      constructor
      · intro _ q hq
        exact Option.noConfusion hq
      · intro _
        rfl
    | some q =>
      by_cases hq : q ≠ 0 ∧ 0 < q
      · rw [ratingEntry_some sh q hs hq]
        constructor
        · intro h
          exact absurd h (Option.some_ne_none _)
        · intro hall
          exact absurd (hall q rfl) (not_le.mpr hq.2)
      · rw [ratingEntry_none_of_nonpos sh q hs hq]
        constructor
        · intro _ q' hq'
          injection hq' with h
          subst h
          rcases le_or_lt q 0 with h | h
          · exact h
          · exact absurd ⟨ne_of_gt h, h⟩ hq
        · intro _
          rfl

theorem claim_C10_witness :
    0 ≤ (⟨1, 5⟩ : AppMain.Rating).avg :=
  ((claim_C10_amended [seriesS] seriesS 2 ⟨1, 5⟩).2.1 ratingEntry_seriesS).1
